import Mathlib

/-!
Verification development for the polymarket-bot discovery-and-scoring pipeline
(`src/server.py`).  The Python code is shallowly embedded: Python values that
flow through the pipeline (results of `r.json()`, `json.loads`, dict literals)
are modelled by the inductive type `JVal`; Python exceptions are modelled with
`Except PyErr`; the `try/except` blocks of the source become explicit handlers.
Numeric values (Python floats/ints) are modelled as exact rationals.
Python dicts are modelled as association lists with unique keys (first-match
lookup); the oracle and venues are modelled as arbitrary inputs.
-/

/-- A Python/JSON value as produced by `r.json()` or `json.loads`. -/
inductive JVal where
  | jnum (q : ℚ)
  | jstr (s : String)
  | jbool (b : Bool)
  | jnull
  | jarr (xs : List JVal)
  | jobj (fields : List (String × JVal))

/-- A Python exception, as far as the pipeline distinguishes them. -/
inductive PyErr where
  | keyError (k : String)
  | typeError
  | attrError
  | jsonError
deriving DecidableEq

/-- The message `str(e)` used when an exception reaches the outer handler of
`discover_markets`.  Python renders `KeyError('k')` as `'k'`; the exact text of
the other messages is irrelevant to every claim and is abbreviated. -/
def pyErrMsg : PyErr → String
  | .keyError k => "'" ++ k ++ "'"
  | .typeError => "TypeError"
  | .attrError => "AttributeError"
  | .jsonError => "JSONDecodeError"

/-- Python `str(...)` of a value, used only inside f-string links.  Composite
values (never exercised by any claim) are abbreviated. -/
def pyStr : JVal → String
  | .jstr s => s
  | .jnull => "None"
  | .jbool true => "True"
  | .jbool false => "False"
  | .jnum q => if q.den = 1 then toString q.num else toString q
  | .jarr _ => "[...]"
  | .jobj _ => "\x7b...\x7d"

/-- Python `for m in data`: lists iterate elements, dicts iterate keys,
strings iterate one-character strings; other values raise `TypeError`. -/
def pyIter : JVal → Except PyErr (List JVal)
  | .jarr xs => .ok xs
  | .jobj fs => .ok (fs.map (fun f => .jstr f.1))
  | .jstr s => .ok (s.toList.map (fun c => .jstr c.toString))
  | _ => .error .typeError

/-- Python `v.get(k, d)`: only dicts have `.get`; anything else raises
`AttributeError`. -/
def pyGetDefault (v : JVal) (k : String) (d : JVal) : Except PyErr JVal :=
  match v with
  | .jobj fs => .ok ((fs.lookup k).getD d)
  | _ => .error .attrError

/-- Python `v[k]` for a string key: dict lookup (raising `KeyError` when the
key is absent); strings and lists reject string subscripts with `TypeError`;
other values are not subscriptable. -/
def pySubscript (v : JVal) (k : String) : Except PyErr JVal :=
  match v with
  | .jobj fs =>
    match fs.lookup k with
    | some x => .ok x
    | none => .error (.keyError k)
  | _ => .error .typeError

/-- Does `small` occur at the start of `big`? (used to model `str.replace`). -/
def leadsWith : List Char → List Char → Bool
  | [], _ => true
  | _ :: _, [] => false
  | a :: as, b :: bs => (a = b) && leadsWith as bs

/-- Python `k in v` for a string `k`: key membership for dicts, substring test
for strings, element equality for lists (a string only ever equals a string);
numbers and `None` raise `TypeError`. -/
def pyContains (k : String) (v : JVal) : Except PyErr Bool :=
  match v with
  | .jobj fs => .ok ((fs.lookup k).isSome)
  | .jstr s =>
    .ok (go k.toList s.toList)
  | .jarr xs =>
    .ok (xs.any (fun x => match x with | .jstr s => s = k | _ => false))
  | _ => .error .typeError
where
  go (needle : List Char) (hay : List Char) : Bool :=
    match hay with
    | [] => needle.isEmpty
    | _ :: rest => leadsWith needle hay || go needle rest

/-- The numeric value of a Python number (floats/ints as exact rationals;
Python `bool` is an `int`).  Arithmetic or ordered comparison on any other
value raises `TypeError`. -/
def pyToNum : JVal → Except PyErr ℚ
  | .jnum q => .ok q
  | .jbool b => .ok (if b then 1 else 0)
  | _ => .error .typeError

/-- A normalized market record as appended by the adapters (a Python dict with
exactly the keys `source`, `title`, `current_price`, `link`). -/
structure MarketListing where
  source : String
  title : JVal
  current_price : JVal
  link : String

/-- The behavior of one HTTP round trip as seen by an adapter:
`failure` models a raised transport error or timeout from `session.get`;
`response status body` models a reply, where `body = none` means `r.json()`
raises (unparseable body). -/
inductive HttpResult where
  | failure
  | response (status : Nat) (body : Option JVal)

/-- One iteration of the Polymarket loop body: builds the listing dict for one
element `m` of the payload, raising if `m` is not record-shaped
(`m.get('prices', \x7b\x7d).get('mid', 0.5)` and the other `.get` calls). -/
def polyProcessItem (m : JVal) : Except PyErr MarketListing := do
  let prices ← pyGetDefault m "prices" (.jobj [])
  let mid ← pyGetDefault prices "mid" (.jnum (1/2))
  let titleDefault ← pyGetDefault m "title" .jnull
  let title ← pyGetDefault m "question" titleDefault
  let slug ← pyGetDefault m "slug" .jnull
  pure { source := "Polymarket", title := title, current_price := mid,
         link := "https://polymarket.com/event/" ++ pyStr slug }

/-- The body of `fetch_polymarket_list`'s `try` block, after the HTTP call:
`for m in data: ... markets.append(...)`.  An exception anywhere aborts the
whole computation (discarding listings already accumulated). -/
def fetch_polymarket_try (h : HttpResult) : Except PyErr (List MarketListing) :=
  match h with
  | .failure => .error .typeError
  | .response status body =>
    if status ≠ 200 then .ok []
    else
      match body with
      | none => .error .jsonError
      | some data => do
        let items ← pyIter data
        items.mapM polyProcessItem

/-- `fetch_polymarket_list`: the `try/except` wrapper returns `[]` on any
exception. -/
def fetch_polymarket_list (h : HttpResult) : List MarketListing :=
  match fetch_polymarket_try h with
  | .ok l => l
  | .error _ => []

/-- Kalshi envelope handling:
`markets_data = data.get('markets', data) if isinstance(data, dict) else data`. -/
def kalshiMarketsData (data : JVal) : JVal :=
  match data with
  | .jobj fs => (fs.lookup "markets").getD data
  | _ => data

/-- One iteration of the Kalshi loop body: non-dict elements are skipped
(`if not isinstance(m, dict): continue`); otherwise
`price = m.get('last_price', m.get('p_yes', 50)) / 100` (division on a
non-number raises `TypeError`). -/
def kalshiProcessItem (m : JVal) : Except PyErr (Option MarketListing) :=
  match m with
  | .jobj fs => do
    let raw := (fs.lookup "last_price").getD ((fs.lookup "p_yes").getD (.jnum 50))
    let q ← pyToNum raw
    pure (some { source := "Kalshi",
                 title := (fs.lookup "title").getD (.jstr "Unknown"),
                 current_price := .jnum (q / 100),
                 link := "https://www.kalshi.com/markets/" ++
                   pyStr ((fs.lookup "ticker").getD (.jstr "")) })
  | _ => pure none

/-- The body of `fetch_kalshi_list`'s `try` block after the HTTP call. -/
def fetch_kalshi_try (h : HttpResult) : Except PyErr (List MarketListing) :=
  match h with
  | .failure => .error .typeError
  | .response status body =>
    if status ≠ 200 then .ok []
    else
      match body with
      | none => .error .jsonError
      | some data => do
        let items ← pyIter (kalshiMarketsData data)
        let opts ← items.mapM kalshiProcessItem
        pure (opts.filterMap id)

/-- `fetch_kalshi_list`: the `try/except` wrapper returns `[]` on any
exception. -/
def fetch_kalshi_list (h : HttpResult) : List MarketListing :=
  match fetch_kalshi_try h with
  | .ok l => l
  | .error _ => []

/-- The hard-coded fallback listings (`FALLBACK_MARKETS` in the source). -/
def FALLBACK_MARKETS : List MarketListing :=
  [ { source := "Polymarket",
      title := .jstr "Winner of 2024 US Presidential Election",
      current_price := .jnum (55/100),
      link := "https://polymarket.com/event/winner-of-2024-us-presidential-election" },
    { source := "Polymarket",
      title := .jstr "Will Bitcoin exceed $100,000 in 2024?",
      current_price := .jnum (35/100),
      link := "https://polymarket.com/event/will-bitcoin-exceed-100000-in-2024" },
    { source := "Kalshi",
      title := .jstr "Federal Reserve target rate after Nov 2024 meeting",
      current_price := .jnum (20/100),
      link := "https://www.kalshi.com/markets/interest-rate-fed-funds-nov-2024" } ]

/-- The aggregation step of `discover_markets`: concatenate the adapter
outputs and substitute `FALLBACK_MARKETS` when the concatenation is empty.
The boolean records whether the degraded branch was taken (the source emits
the distinct log line "APIs Empty. Using Fallback Markets." exactly then). -/
def aggregate (poly kalshi : List MarketListing) : List MarketListing × Bool :=
  let all_markets := poly ++ kalshi
  if all_markets.isEmpty then (FALLBACK_MARKETS, true) else (all_markets, false)

/-- `scan_list = all_markets[:30]` — the batch handed to the scoring oracle. -/
def scan_list (poly kalshi : List MarketListing) : List MarketListing :=
  (aggregate poly kalshi).1.take 30

/-- One invocation of `send_telegram_alert` recorded by the classifier loop
(the arguments `asyncio.run(send_telegram_alert(...))` is called with). -/
structure AlertCall where
  title : JVal
  edge : ℚ
  confidence : JVal
  source : JVal

/-- `send_telegram_alert`'s own gating: whether a message send is actually
attempted given the environment (`bot`/`chat_id` presence) and the confidence
passed in (`if confidence < 80: return`). -/
def send_telegram_alert (botPresent chatPresent : Bool) (confidence : ℚ) : Bool :=
  botPresent && chatPresent && !(decide (confidence < 80))

/-- One iteration of the classifier loop of `discover_markets` on a parsed
pick: `.ok none` models `continue` (incomplete record), `.ok (some (r, as))`
models appending the result dict `r` after making the alert calls `as`, and
`.error e` models an exception escaping the loop. -/
def processPick (pick : JVal) : Except PyErr (Option (JVal × List AlertCall)) := do
  let hasFv ← pyContains "fair_value" pick
  let hasConf ← pyContains "confidence" pick
  if !hasFv || !hasConf then
    pure none
  else do
    let fv ← pySubscript pick "fair_value"
    let cp ← pySubscript pick "current_price"
    let fvq ← pyToNum fv
    let cpq ← pyToNum cp
    let edge := fvq - cpq
    let conf ← pySubscript pick "confidence"
    let confq ← pyToNum conf
    let fire := decide (80 < confq) && decide (0 < edge)
    let alerts ← if fire then do
        let t ← pySubscript pick "title"
        let src ← pyGetDefault pick "source" (.jstr "Unknown")
        pure [({ title := t, edge := edge, confidence := conf, source := src } : AlertCall)]
      else
        pure ([] : List AlertCall)
    let t ← pySubscript pick "title"
    let src ← pyGetDefault pick "source" (.jstr "Unknown")
    let topic ← pyGetDefault pick "topic" (.jstr "geo")
    let rat ← pySubscript pick "rationale"
    pure (some (.jobj [("title", t), ("source", src), ("topic", topic),
      ("current_price", cp), ("fair_value", fv), ("edge", .jnum edge),
      ("confidence", conf), ("rationale", rat),
      ("link", .jstr "https://polymarket.com")], alerts))

/-- The classifier loop over the parsed picks, accumulating `final_results`
and the alert calls made; an exception aborts the loop (and the scan). -/
def classifyGo : List JVal → Except PyErr (List JVal × List AlertCall)
  | [] => .ok ([], [])
  | p :: rest => do
    match ← processPick p with
    | none => classifyGo rest
    | some (r, as) =>
      let (rs, as2) ← classifyGo rest
      pure (r :: rs, as ++ as2)

/-- The classifier stage: `for pick in picks: ...` (iterating a non-iterable
parse result raises). -/
def classify (picks : JVal) : Except PyErr (List JVal × List AlertCall) := do
  let items ← pyIter picks
  classifyGo items

/-- Worker for `stripPat`: scan `s`; while `skip > 0` the current character
belongs to a pattern occurrence already matched and is dropped; at `skip = 0`
a fresh match drops the first pattern character and enters skip mode for the
rest of the pattern. -/
def stripAux (pat : List Char) : List Char → Nat → List Char
  | [], _ => []
  | _ :: rest, k + 1 => stripAux pat rest k
  | c :: rest, 0 =>
    if leadsWith pat (c :: rest) then stripAux pat rest (pat.length - 1)
    else c :: stripAux pat rest 0

/-- Remove every occurrence of the (non-empty) pattern from `s`, left to
right, non-overlapping — Python `s.replace(pat, "")`. -/
def stripPat (pat : List Char) (s : List Char) : List Char :=
  stripAux pat s 0

/-- `content.replace("```json", "").replace("```", "")`. -/
def stripFences (s : List Char) : List Char :=
  stripPat "```".toList (stripPat "```json".toList s)

/-- `re.search(r'\[.*\]', content, re.DOTALL)`: the greedy span from the
first occurrence of the opening square bracket to the last occurrence of the
closing one; when the pattern does not match, `content` is left unchanged. -/
def extractSpan (s : List Char) : List Char :=
  let t := s.dropWhile (fun c => c ≠ '[')
  let u := (t.reverse.dropWhile (fun c => c ≠ ']')).reverse
  if u.isEmpty then s else u

/-- The outcome of the scoring-oracle stage for a given batch: the client may
be unconfigured (`get_openai_client()` returned `None`), the completion call
may raise, or it returns the raw text content. -/
inductive OracleOutcome where
  | missingKey
  | failure (msg : String)
  | content (s : List Char)

/-- What `/api/discover` sends back: a 200 JSON array, or a 500 error
envelope `\x7b"error": msg\x7d`. -/
inductive ScanResponse where
  | success (results : List JVal)
  | error (msg : String)

/-- `discover_markets`: the whole pipeline, parameterized by the two venues'
HTTP behavior, the oracle (an arbitrary function of the batch handed to it),
and `json.loads` (an arbitrary parser; `none` models a raised parse error). -/
def discover_markets (ph kh : HttpResult)
    (oracle : List MarketListing → OracleOutcome)
    (parse : List Char → Option JVal) : ScanResponse :=
  let poly := fetch_polymarket_list ph
  let kalshi := fetch_kalshi_list kh
  let scan := scan_list poly kalshi
  match oracle scan with
  | .missingKey => .error "Missing OpenAI Key"
  | .failure m => .error m
  | .content s =>
    match parse (extractSpan (stripFences s)) with
    | none => .success []
    | some picks =>
      match classify picks with
      | .ok (res, _alerts) => .success res
      | .error e => .error (pyErrMsg e)

/-- The value stored under `k`, `None`-defaulted (helper for statements). -/
def lookupD (fs : List (String × JVal)) (k : String) : JVal :=
  (fs.lookup k).getD .jnull

/-- Is this value a Python number (int/float/bool)? -/
def isNumB : JVal → Bool
  | .jnum _ => true
  | .jbool _ => true
  | _ => false

/-- The rational value of a Python number (junk elsewhere; only applied to
values satisfying `isNumB`). -/
def toQ : JVal → ℚ
  | .jnum q => q
  | .jbool b => if b then 1 else 0
  | _ => 0

/-- Does a pick pass the completeness check
`'fair_value' in pick and 'confidence' in pick`? -/
def passItem : JVal → Bool
  | .jobj fs => (fs.lookup "fair_value").isSome && (fs.lookup "confidence").isSome
  | _ => false

/-- `edge = pick['fair_value'] - pick['current_price']` of a record. -/
def edgeFs (fs : List (String × JVal)) : ℚ :=
  toQ (lookupD fs "fair_value") - toQ (lookupD fs "current_price")

/-- The alert gate `confidence > 80 and edge > 0` of a record. -/
def condFs (fs : List (String × JVal)) : Bool :=
  decide ((80 : ℚ) < toQ (lookupD fs "confidence")) && decide ((0 : ℚ) < edgeFs fs)

/-- The alert gate, lifted to a pick. -/
def condItem : JVal → Bool
  | .jobj fs => condFs fs
  | _ => false

/-- The dict appended to `final_results` for a surviving record. -/
def buildFs (fs : List (String × JVal)) : JVal :=
  .jobj [("title", lookupD fs "title"),
    ("source", (fs.lookup "source").getD (.jstr "Unknown")),
    ("topic", (fs.lookup "topic").getD (.jstr "geo")),
    ("current_price", lookupD fs "current_price"),
    ("fair_value", lookupD fs "fair_value"),
    ("edge", .jnum (edgeFs fs)),
    ("confidence", lookupD fs "confidence"),
    ("rationale", lookupD fs "rationale"),
    ("link", .jstr "https://polymarket.com")]

/-- The result dict, lifted to a pick. -/
def buildItem : JVal → JVal
  | .jobj fs => buildFs fs
  | _ => .jnull

/-- The alert-call arguments for a record that fires. -/
def alertFs (fs : List (String × JVal)) : AlertCall :=
  { title := lookupD fs "title", edge := edgeFs fs,
    confidence := lookupD fs "confidence",
    source := (fs.lookup "source").getD (.jstr "Unknown") }

/-- The alert call, lifted to a pick. -/
def alertItem : JVal → AlertCall
  | .jobj fs => alertFs fs
  | _ => { title := .jnull, edge := 0, confidence := .jnull, source := .jnull }

/-- A pick is well formed when it is a dict and, if it passes the completeness
check, its `fair_value`, `current_price` and `confidence` are numbers and
`title` and `rationale` are present — exactly the shape under which the
classifier loop body cannot raise. -/
def wellFormedB : JVal → Bool
  | .jobj fs =>
    !((fs.lookup "fair_value").isSome && (fs.lookup "confidence").isSome) ||
      (isNumB (lookupD fs "fair_value") && isNumB (lookupD fs "current_price") &&
       isNumB (lookupD fs "confidence") &&
       (fs.lookup "title").isSome && (fs.lookup "rationale").isSome)
  | _ => false

/-- Is this value a number lying in the unit interval `[0, 1]`? -/
def priceInUnitB : JVal → Bool
  | .jnum q => decide ((0 : ℚ) ≤ q) && decide (q ≤ 1)
  | _ => false

/-- The value that `m.get('prices', \x7b\x7d).get('mid', 0.5)` yields for a
payload element `m`, or `none` when that expression raises. -/
def polyMidValue (m : JVal) : Option JVal :=
  match m with
  | .jobj fs =>
    match (fs.lookup "prices").getD (.jobj []) with
    | .jobj ps => some ((ps.lookup "mid").getD (.jnum (1/2)))
    | _ => none
  | _ => none

/-- A Kalshi payload element is in-range when it is either skipped, or its
effective raw price (`last_price`, else `p_yes`, else the default `50`) is a
number in `[0, 100]` or a bool, or is non-numeric (in which case the whole
fetch degrades to `[]` and produces no listing at all). -/
def kalshiRawOK : JVal → Prop
  | .jobj fs =>
    match (fs.lookup "last_price").getD ((fs.lookup "p_yes").getD (.jnum 50)) with
    | .jnum q => 0 ≤ q ∧ q ≤ 100
    | _ => True
  | _ => True

/-- The element list an adapter loop iterates over (empty when `for m in data`
itself would raise). -/
def iterOf (d : JVal) : List JVal :=
  match pyIter d with
  | .ok l => l
  | .error _ => []

/-- The first key whose absence the classifier loop body trips over for a
record that passed the completeness check. -/
def missingKeyOf (fs : List (String × JVal)) : String :=
  match fs.lookup "current_price" with
  | none => "current_price"
  | some _ =>
    match fs.lookup "title" with
    | none => "title"
    | some _ => "rationale"

theorem pyToNum_of_isNum (v : JVal) (h : isNumB v = true) : pyToNum v = .ok (toQ v) := by
  cases v <;> simp_all [isNumB, pyToNum, toQ]

theorem lookupD_isNum_some (fs : List (String × JVal)) (k : String)
    (h : isNumB (lookupD fs k) = true) :
    ∃ v, fs.lookup k = some v ∧ isNumB v = true := by
  unfold lookupD at h
  cases hv : fs.lookup k with
  | none => rw [hv] at h; simp [isNumB] at h
  | some v => rw [hv] at h; exact ⟨v, rfl, h⟩

theorem processPick_skip (fs : List (String × JVal))
    (h : fs.lookup "fair_value" = none ∨ fs.lookup "confidence" = none) :
    processPick (.jobj fs) = .ok none := by
  rcases h with h | h <;>
    simp [processPick, pyContains, h, Bind.bind, Except.bind, Pure.pure, Except.pure]

theorem processPick_wf (fs : List (String × JVal)) (h : wellFormedB (.jobj fs) = true) :
    processPick (.jobj fs) =
      .ok (if passItem (.jobj fs) then
        some (buildFs fs, if condFs fs then [alertFs fs] else []) else none) := by
  by_cases hp : passItem (.jobj fs) = true
  · rw [hp, if_pos rfl]
    have hp' := hp
    simp only [passItem, Bool.and_eq_true, Option.isSome_iff_exists] at hp'
    obtain ⟨⟨fv, hfv⟩, cf, hcf⟩ := hp'
    simp only [wellFormedB, hfv, hcf, Option.isSome_some, Bool.not_true, Bool.false_or,
      Bool.and_true, Bool.and_eq_true] at h
    obtain ⟨⟨⟨⟨hfvN, hcpN⟩, hcfN⟩, hT⟩, hR⟩ := h
    obtain ⟨tv, htv⟩ := Option.isSome_iff_exists.mp hT
    obtain ⟨rv, hrv⟩ := Option.isSome_iff_exists.mp hR
    obtain ⟨cp, hcp, hcpN'⟩ := lookupD_isNum_some fs "current_price" hcpN
    rw [lookupD, hfv, Option.getD_some] at hfvN
    rw [lookupD, hcf, Option.getD_some] at hcfN
    simp [processPick, pyContains, pySubscript, pyGetDefault, hfv, hcf, hcp, htv, hrv,
      pyToNum_of_isNum _ hfvN, pyToNum_of_isNum _ hcfN, pyToNum_of_isNum _ hcpN',
      Bind.bind, Except.bind, Pure.pure, Except.pure,
      buildFs, alertFs, condFs, edgeFs, lookupD]
    split <;> rfl
  · rw [if_neg hp]
    apply processPick_skip
    simp only [passItem, Bool.and_eq_true, not_and_or, Bool.not_eq_true] at hp
    rcases hp with hp | hp
    · left
      cases hL : fs.lookup "fair_value" with
      | none => rfl
      | some v => rw [hL] at hp; simp at hp
    · right
      cases hL : fs.lookup "confidence" with
      | none => rfl
      | some v => rw [hL] at hp; simp at hp

theorem classifyGo_cons (p : JVal) (rest : List JVal) :
    classifyGo (p :: rest) =
      (processPick p).bind (fun o =>
        match o with
        | none => classifyGo rest
        | some (r, as) => (classifyGo rest).bind (fun x => .ok (r :: x.1, as ++ x.2))) := by
  cases hp : processPick p with
  | error e => simp [classifyGo, hp, Bind.bind, Except.bind]
  | ok o =>
    cases o with
    | none => simp [classifyGo, hp, Bind.bind, Except.bind]
    | some ra =>
      cases hgo : classifyGo rest with
      | error e => simp [classifyGo, hp, hgo, Bind.bind, Except.bind, Pure.pure, Except.pure]
      | ok x => simp [classifyGo, hp, hgo, Bind.bind, Except.bind, Pure.pure, Except.pure]

theorem classifyGo_wf (items : List JVal) (h : ∀ p ∈ items, wellFormedB p = true) :
    classifyGo items = .ok ((items.filter passItem).map buildItem,
      ((items.filter (fun p => passItem p && condItem p)).map alertItem)) := by
  induction items with
  | nil => simp [classifyGo]
  | cons p rest ih =>
    have hwp : wellFormedB p = true := h p (by simp)
    have hrest : ∀ q ∈ rest, wellFormedB q = true := fun q hq => h q (by simp [hq])
    cases p with
    | jobj fs =>
      rw [classifyGo_cons, processPick_wf fs hwp, ih hrest]
      by_cases hpass : passItem (.jobj fs) = true
      · by_cases hcond : condFs fs = true
        · simp [hpass, hcond, Except.bind, buildItem, alertItem, condItem, List.filter_cons]
        · simp [hpass, hcond, Except.bind, buildItem, alertItem, condItem, List.filter_cons]
      · simp [hpass, Except.bind, condItem, List.filter_cons]
    | jnum q => simp [wellFormedB] at hwp
    | jstr s => simp [wellFormedB] at hwp
    | jbool b => simp [wellFormedB] at hwp
    | jnull => simp [wellFormedB] at hwp
    | jarr xs => simp [wellFormedB] at hwp

theorem classifyGo_insert_skip (pre post : List JVal) (x : JVal)
    (hx : processPick x = .ok none) :
    classifyGo (pre ++ x :: post) = classifyGo (pre ++ post) := by
  induction pre with
  | nil => simp [classifyGo_cons, hx, Except.bind]
  | cons p ps ih => rw [List.cons_append, List.cons_append, classifyGo_cons, classifyGo_cons, ih]

theorem classifyGo_append_error (pre rest : List JVal) (x : JVal)
    (pr : List JVal × List AlertCall) (e : PyErr)
    (hpre : classifyGo pre = .ok pr) (hx : processPick x = .error e) :
    classifyGo (pre ++ x :: rest) = .error e := by
  induction pre generalizing pr with
  | nil => simp [classifyGo_cons, hx, Except.bind]
  | cons p ps ih =>
    rw [List.cons_append, classifyGo_cons]
    rw [classifyGo_cons] at hpre
    cases hp : processPick p with
    | error e2 => rw [hp] at hpre; simp [Except.bind] at hpre
    | ok o =>
      rw [hp] at hpre
      cases o with
      | none =>
        simp [Except.bind] at hpre ⊢
        exact ih pr hpre
      | some ra =>
        cases hgo : classifyGo ps with
        | error e3 => rw [hgo] at hpre; simp [Except.bind] at hpre
        | ok y =>
          simp [Except.bind, ih y hgo]

/-- C2: in the classifier, a notification is dispatched for a surviving record
if and only if its confidence is strictly greater than 80 and its edge
(`fair_value - current_price`) is strictly positive; the gate affects
notification only — every record passing the completeness check is included in
`final_results` whether or not it triggered a notification. -/
theorem classifier_alert_gate_and_inclusion (items : List JVal)
    (h : ∀ p ∈ items, wellFormedB p = true) :
    classify (.jarr items) = .ok ((items.filter passItem).map buildItem,
      ((items.filter (fun p => passItem p && condItem p)).map alertItem)) := by
  simp only [classify, pyIter, Bind.bind, Except.bind]
  exact classifyGo_wf items h

theorem classifier_alert_gate_and_inclusion_witness :
    classify (.jarr [
      .jobj [("title", .jstr "A"), ("source", .jstr "Polymarket"),
        ("current_price", .jnum (59/100)), ("fair_value", .jnum (6/10)),
        ("confidence", .jnum 81), ("rationale", .jstr "r1")],
      .jobj [("title", .jstr "B"), ("source", .jstr "Kalshi"),
        ("current_price", .jnum (59/100)), ("fair_value", .jnum (6/10)),
        ("confidence", .jnum 80), ("rationale", .jstr "r2")],
      .jobj [("title", .jstr "C"), ("source", .jstr "Polymarket"),
        ("current_price", .jnum (1/2)), ("fair_value", .jnum (1/2)),
        ("confidence", .jnum 90), ("rationale", .jstr "r3")]]) =
    .ok ([buildItem (.jobj [("title", .jstr "A"), ("source", .jstr "Polymarket"),
        ("current_price", .jnum (59/100)), ("fair_value", .jnum (6/10)),
        ("confidence", .jnum 81), ("rationale", .jstr "r1")]),
      buildItem (.jobj [("title", .jstr "B"), ("source", .jstr "Kalshi"),
        ("current_price", .jnum (59/100)), ("fair_value", .jnum (6/10)),
        ("confidence", .jnum 80), ("rationale", .jstr "r2")]),
      buildItem (.jobj [("title", .jstr "C"), ("source", .jstr "Polymarket"),
        ("current_price", .jnum (1/2)), ("fair_value", .jnum (1/2)),
        ("confidence", .jnum 90), ("rationale", .jstr "r3")])],
      [alertItem (.jobj [("title", .jstr "A"), ("source", .jstr "Polymarket"),
        ("current_price", .jnum (59/100)), ("fair_value", .jnum (6/10)),
        ("confidence", .jnum 81), ("rationale", .jstr "r1")])]) := by
  rw [classifier_alert_gate_and_inclusion _ (by decide)]
  simp [List.filter_cons, passItem, condItem, condFs, edgeFs, lookupD, toQ, List.lookup]
  norm_num

/-- C6: a raw candidate lacking the `fair_value` key or the `confidence` key
is discarded entirely by the classifier: the scan result on a pick list
containing it is the very result on the list without it (nothing is repaired
or defaulted). -/
theorem incomplete_candidate_dropped (pre post : List JVal) (fs : List (String × JVal))
    (h : fs.lookup "fair_value" = none ∨ fs.lookup "confidence" = none) :
    classify (.jarr (pre ++ .jobj fs :: post)) = classify (.jarr (pre ++ post)) := by
  simp only [classify, pyIter, Bind.bind, Except.bind]
  exact classifyGo_insert_skip pre post _ (processPick_skip fs h)

theorem incomplete_candidate_dropped_witness :
    classify (.jarr [.jobj [("title", .jstr "X"), ("fair_value", .jnum (6/10)),
      ("current_price", .jnum (4/10))]]) = classify (.jarr []) ∧
    classify (.jarr [.jobj [("title", .jstr "X"), ("fair_value", .jnum (6/10)),
      ("current_price", .jnum (4/10))]]) = .ok ([], []) := by
  have h := incomplete_candidate_dropped [] []
    [("title", .jstr "X"), ("fair_value", .jnum (6/10)), ("current_price", .jnum (4/10))]
    (Or.inr rfl)
  simp only [List.nil_append] at h
  exact ⟨h, by rw [h]; rfl⟩

theorem processPick_keyErr (fs : List (String × JVal))
    (hfvN : isNumB (lookupD fs "fair_value") = true)
    (hcfN : isNumB (lookupD fs "confidence") = true)
    (hmiss : fs.lookup "current_price" = none ∨
      (isNumB (lookupD fs "current_price") = true ∧
        (fs.lookup "title" = none ∨
          ((fs.lookup "title").isSome = true ∧ fs.lookup "rationale" = none)))) :
    processPick (.jobj fs) = .error (.keyError (missingKeyOf fs)) := by
  obtain ⟨fv, hfv, hfvN'⟩ := lookupD_isNum_some fs "fair_value" hfvN
  obtain ⟨cf, hcf, hcfN'⟩ := lookupD_isNum_some fs "confidence" hcfN
  rcases hmiss with hcp | ⟨hcpN, hmiss2⟩
  · simp [processPick, missingKeyOf, pyContains, pySubscript, hfv, hcf, hcp,
      pyToNum_of_isNum _ hfvN', Bind.bind, Except.bind, Pure.pure, Except.pure]
  · obtain ⟨cp, hcp, hcpN'⟩ := lookupD_isNum_some fs "current_price" hcpN
    rcases hmiss2 with ht | ⟨hT, hr⟩
    · simp [processPick, missingKeyOf, pyContains, pySubscript, pyGetDefault, hfv, hcf, hcp, ht,
        pyToNum_of_isNum _ hfvN', pyToNum_of_isNum _ hcfN', pyToNum_of_isNum _ hcpN',
        Bind.bind, Except.bind, Pure.pure, Except.pure]
    · obtain ⟨tv, htv⟩ := Option.isSome_iff_exists.mp hT
      simp [processPick, missingKeyOf, pyContains, pySubscript, pyGetDefault, hfv, hcf, hcp,
        htv, hr, pyToNum_of_isNum _ hfvN', pyToNum_of_isNum _ hcfN', pyToNum_of_isNum _ hcpN',
        Bind.bind, Except.bind, Pure.pure, Except.pure]

/-- C7: a parsed candidate that passes the completeness check (numeric
`fair_value` and `confidence`) but lacks `current_price`, `title` or
`rationale` makes the per-record loop raise a `KeyError` that escapes to the
outer catch-all: the whole scan returns the 500 error envelope (no candidate
list at all), rather than merely dropping the faulty record. -/
theorem malformed_survivor_aborts_scan (ph kh : HttpResult)
    (parse : List Char → Option JVal) (s : List Char)
    (pre rest : List JVal) (fs : List (String × JVal)) (pr : List JVal × List AlertCall)
    (hparse : parse (extractSpan (stripFences s)) = some (.jarr (pre ++ .jobj fs :: rest)))
    (hpre : classifyGo pre = .ok pr)
    (hfvN : isNumB (lookupD fs "fair_value") = true)
    (hcfN : isNumB (lookupD fs "confidence") = true)
    (hmiss : fs.lookup "current_price" = none ∨
      (isNumB (lookupD fs "current_price") = true ∧
        (fs.lookup "title" = none ∨
          ((fs.lookup "title").isSome = true ∧ fs.lookup "rationale" = none)))) :
    discover_markets ph kh (fun _ => .content s) parse =
      .error ("'" ++ missingKeyOf fs ++ "'") := by
  have hclass : classify (.jarr (pre ++ .jobj fs :: rest)) =
      .error (.keyError (missingKeyOf fs)) := by
    simp only [classify, pyIter, Bind.bind, Except.bind]
    exact classifyGo_append_error pre rest _ pr _ hpre (processPick_keyErr fs hfvN hcfN hmiss)
  simp [discover_markets, hparse, hclass, pyErrMsg]

theorem malformed_survivor_aborts_scan_witness :
    discover_markets .failure .failure (fun _ => .content "irrelevant".toList)
      (fun _ => some (.jarr [.jobj [("title", .jstr "X"), ("fair_value", .jnum (6/10)),
        ("confidence", .jnum 90)]])) = .error "'current_price'" := by
  have h := malformed_survivor_aborts_scan .failure .failure
    (fun _ => some (.jarr [.jobj [("title", .jstr "X"), ("fair_value", .jnum (6/10)),
      ("confidence", .jnum 90)]])) "irrelevant".toList
    [] [] [("title", .jstr "X"), ("fair_value", .jnum (6/10)), ("confidence", .jnum 90)]
    ([], []) rfl rfl (by decide) (by decide) (Or.inl rfl)
  simpa [missingKeyOf] using h

/-- C3: if both adapters return empty lists, the aggregation step substitutes
exactly the hard-coded `FALLBACK_MARKETS` (which is non-empty, so downstream
stages receive non-empty input), and the degraded branch is marked (the
boolean models the distinct fallback log line), while any genuine non-empty
concatenation passes through unchanged and unmarked. -/
theorem aggregator_fallback_policy :
    aggregate [] [] = (FALLBACK_MARKETS, true) ∧
    FALLBACK_MARKETS ≠ [] ∧
    ∀ poly kalshi : List MarketListing,
      poly ++ kalshi ≠ [] → aggregate poly kalshi = (poly ++ kalshi, false) := by
  refine ⟨rfl, by simp [FALLBACK_MARKETS], ?_⟩
  intro poly kalshi h
  simp [aggregate, h]

theorem aggregator_fallback_policy_witness :
    aggregate FALLBACK_MARKETS [] = (FALLBACK_MARKETS ++ [], false) :=
  aggregator_fallback_policy.2.2 FALLBACK_MARKETS []
    (by simp [FALLBACK_MARKETS])

/-- C8: the batch handed to the scoring oracle (`scan_list`, the truncation
`all_markets[:30]` of the combined-or-fallback list used by
`discover_markets`) never holds more than 30 items. -/
theorem oracle_batch_ceiling (poly kalshi : List MarketListing) :
    (scan_list poly kalshi).length ≤ 30 := by
  simp only [scan_list]
  exact (List.length_take_le 30 _)

/-- C4: when parsing the extracted span of the oracle's response fails, the
pipeline returns the empty JSON array (a 200 success with zero candidates),
not an error envelope — whatever the venues did. -/
theorem parse_failure_degrades_to_empty (ph kh : HttpResult)
    (parse : List Char → Option JVal) (s : List Char)
    (h : parse (extractSpan (stripFences s)) = none) :
    discover_markets ph kh (fun _ => .content s) parse = .success [] := by
  simp [discover_markets, h]

theorem parse_failure_degrades_to_empty_witness :
    discover_markets .failure .failure
      (fun _ => .content "I cannot answer that.".toList) (fun _ => none) = .success [] :=
  parse_failure_degrades_to_empty .failure .failure (fun _ => none)
    "I cannot answer that.".toList rfl

/-- C10: a venue adapter never raises to its caller: transport failure, a
non-200 status, an unparseable body, or any exception inside the `try` body
(unexpected payload shape) is caught and yields the empty list. -/
theorem adapters_never_raise :
    (fetch_polymarket_list .failure = [] ∧ fetch_kalshi_list .failure = []) ∧
    (∀ status body, status ≠ 200 →
      fetch_polymarket_list (.response status body) = [] ∧
      fetch_kalshi_list (.response status body) = []) ∧
    (fetch_polymarket_list (.response 200 none) = [] ∧
     fetch_kalshi_list (.response 200 none) = []) ∧
    (∀ h e, fetch_polymarket_try h = .error e → fetch_polymarket_list h = []) ∧
    (∀ h e, fetch_kalshi_try h = .error e → fetch_kalshi_list h = []) := by
  refine ⟨⟨rfl, rfl⟩, ?_, ⟨rfl, rfl⟩, ?_, ?_⟩
  · intro status body h
    constructor <;>
      simp [fetch_polymarket_list, fetch_kalshi_list,
        fetch_polymarket_try, fetch_kalshi_try, h]
  · intro h e he
    simp [fetch_polymarket_list, he]
  · intro h e he
    simp [fetch_kalshi_list, he]

theorem adapters_never_raise_witness :
    fetch_polymarket_list (.response 403 none) = [] ∧
    fetch_kalshi_list (.response 200 (some (.jnum 7))) = [] :=
  ⟨(adapters_never_raise.2.1 403 none (by decide)).1,
   adapters_never_raise.2.2.2.2 (.response 200 (some (.jnum 7))) .typeError rfl⟩

/-- C1 counterexample: the Polymarket adapter does not normalize or clamp the
venue's price: a payload whose nested mid-price is `45` produces a listing
whose `current_price` is `45`, which is not in `[0, 1]` — so it is not true
that every listing leaving an adapter has `current_price ∈ [0, 1]`. -/
theorem adapter_price_out_of_unit_counterexample :
    (fetch_polymarket_list (.response 200 (some (.jarr [.jobj
        [("prices", .jobj [("mid", .jnum 45)]), ("question", .jstr "Q"),
         ("slug", .jstr "s")]])))).map (fun l => l.current_price) = [.jnum 45] ∧
    priceInUnitB (.jnum 45) = false :=
  ⟨rfl, by decide⟩

theorem polyProcessItem_mid (m : JVal) (l : MarketListing)
    (h : polyProcessItem m = .ok l) : polyMidValue m = some l.current_price := by
  cases m with
  | jobj fs =>
    cases hpr : (fs.lookup "prices").getD (.jobj []) with
    | jobj ps =>
      simp [polyProcessItem, pyGetDefault, hpr, Bind.bind, Except.bind,
        Pure.pure, Except.pure] at h
      simp [polyMidValue, hpr, ← h]
    | jnum q => simp [polyProcessItem, pyGetDefault, hpr, Bind.bind, Except.bind] at h
    | jstr s => simp [polyProcessItem, pyGetDefault, hpr, Bind.bind, Except.bind] at h
    | jbool b => simp [polyProcessItem, pyGetDefault, hpr, Bind.bind, Except.bind] at h
    | jnull => simp [polyProcessItem, pyGetDefault, hpr, Bind.bind, Except.bind] at h
    | jarr xs => simp [polyProcessItem, pyGetDefault, hpr, Bind.bind, Except.bind] at h
  | jnum q => simp [polyProcessItem, pyGetDefault, Bind.bind, Except.bind] at h
  | jstr s => simp [polyProcessItem, pyGetDefault, Bind.bind, Except.bind] at h
  | jbool b => simp [polyProcessItem, pyGetDefault, Bind.bind, Except.bind] at h
  | jnull => simp [polyProcessItem, pyGetDefault, Bind.bind, Except.bind] at h
  | jarr xs => simp [polyProcessItem, pyGetDefault, Bind.bind, Except.bind] at h

theorem poly_mapM_prices (items : List JVal)
    (h : ∀ m ∈ items, ∀ v, polyMidValue m = some v → priceInUnitB v = true)
    (res : List MarketListing) (hres : items.mapM polyProcessItem = .ok res) :
    ∀ l ∈ res, priceInUnitB l.current_price = true := by
  induction items generalizing res with
  | nil =>
    simp only [List.mapM_nil, pure, Except.pure] at hres
    cases hres
    simp
  | cons m ms ih =>
    rw [List.mapM_cons] at hres
    cases hm : polyProcessItem m with
    | error e => rw [hm] at hres; simp [Bind.bind, Except.bind] at hres
    | ok l0 =>
      rw [hm] at hres
      cases hms : ms.mapM polyProcessItem with
      | error e => rw [hms] at hres; simp [Bind.bind, Except.bind] at hres
      | ok res0 =>
        rw [hms] at hres
        simp only [Bind.bind, Except.bind, pure, Except.pure] at hres
        cases hres
        intro l hl
        rcases List.mem_cons.mp hl with hl | hl
        · subst hl
          exact h m (by simp) _ (polyProcessItem_mid m l hm)
        · exact ih (fun q hq v hv => h q (by simp [hq]) v hv) res0 hms l hl

theorem kalshiProcessItem_price (m : JVal) (l : MarketListing)
    (h : kalshiProcessItem m = .ok (some l)) (hok : kalshiRawOK m) :
    priceInUnitB l.current_price = true := by
  cases m with
  | jobj fs =>
    cases hraw : (fs.lookup "last_price").getD ((fs.lookup "p_yes").getD (.jnum 50)) with
    | jnum q =>
      simp only [kalshiRawOK, hraw] at hok
      simp [kalshiProcessItem, hraw, pyToNum, Bind.bind, Except.bind,
        Pure.pure, Except.pure] at h
      have h0 : (0 : ℚ) ≤ q / 100 := div_nonneg hok.1 (by norm_num)
      have h1 : q / 100 ≤ 1 := (div_le_one (by norm_num)).mpr hok.2
      simp [← h, priceInUnitB, h0, h1]
    | jbool b =>
      simp [kalshiProcessItem, hraw, pyToNum, Bind.bind, Except.bind,
        Pure.pure, Except.pure] at h
      cases b <;> norm_num [← h, priceInUnitB]
    | jstr s => simp [kalshiProcessItem, hraw, pyToNum, Bind.bind, Except.bind] at h
    | jnull => simp [kalshiProcessItem, hraw, pyToNum, Bind.bind, Except.bind] at h
    | jarr xs => simp [kalshiProcessItem, hraw, pyToNum, Bind.bind, Except.bind] at h
    | jobj ps => simp [kalshiProcessItem, hraw, pyToNum, Bind.bind, Except.bind] at h
  | jnum q => simp [kalshiProcessItem, Pure.pure, Except.pure] at h
  | jstr s => simp [kalshiProcessItem, Pure.pure, Except.pure] at h
  | jbool b => simp [kalshiProcessItem, Pure.pure, Except.pure] at h
  | jnull => simp [kalshiProcessItem, Pure.pure, Except.pure] at h
  | jarr xs => simp [kalshiProcessItem, Pure.pure, Except.pure] at h

theorem kalshi_mapM_prices (items : List JVal)
    (h : ∀ m ∈ items, kalshiRawOK m)
    (opts : List (Option MarketListing))
    (hres : items.mapM kalshiProcessItem = .ok opts) :
    ∀ l ∈ opts.filterMap id, priceInUnitB l.current_price = true := by
  induction items generalizing opts with
  | nil =>
    simp only [List.mapM_nil, pure, Except.pure] at hres
    cases hres
    simp
  | cons m ms ih =>
    rw [List.mapM_cons] at hres
    cases hm : kalshiProcessItem m with
    | error e => rw [hm] at hres; simp [Bind.bind, Except.bind] at hres
    | ok o =>
      rw [hm] at hres
      cases hms : ms.mapM kalshiProcessItem with
      | error e => rw [hms] at hres; simp [Bind.bind, Except.bind] at hres
      | ok opts0 =>
        rw [hms] at hres
        simp only [Bind.bind, Except.bind, pure, Except.pure] at hres
        cases hres
        intro l hl
        cases o with
        | none => exact ih (fun q hq => h q (by simp [hq])) opts0 hms l (by simpa using hl)
        | some l0 =>
          simp only [List.filterMap_cons, id] at hl
          rcases List.mem_cons.mp hl with hl | hl
          · subst hl
            exact kalshiProcessItem_price m l hm (h m (by simp))
          · exact ih (fun q hq => h q (by simp [hq])) opts0 hms l hl

/-- C1 (amended): normalization is division by 100 for Kalshi and identity
for Polymarket, with no clamping: the Kalshi adapter divides the venue's raw
price by 100 and the Polymarket adapter passes the nested mid-price through
unchanged, so every produced listing has `current_price` in `[0, 1]` provided
each payload element's effective raw price is a number within the venue's
native range (`[0, 1]` for Polymarket, `[0, 100]` for Kalshi) — but not for
out-of-range payloads (see the counterexample). -/
theorem adapter_price_normalization_amended :
    (∀ fs q, fs.lookup "last_price" = some (.jnum q) →
      ∃ l, kalshiProcessItem (.jobj fs) = .ok (some l) ∧
        l.current_price = .jnum (q / 100)) ∧
    (∀ m v, polyMidValue m = some v →
      ∃ l, polyProcessItem m = .ok l ∧ l.current_price = v) ∧
    (∀ d, (∀ m ∈ iterOf d, ∀ v, polyMidValue m = some v → priceInUnitB v = true) →
      ∀ l ∈ fetch_polymarket_list (.response 200 (some d)),
        priceInUnitB l.current_price = true) ∧
    (∀ d, (∀ m ∈ iterOf (kalshiMarketsData d), kalshiRawOK m) →
      ∀ l ∈ fetch_kalshi_list (.response 200 (some d)),
        priceInUnitB l.current_price = true) := by
  refine ⟨?_, ?_, ?_, ?_⟩
  · intro fs q hlp
    simp [kalshiProcessItem, hlp, pyToNum, Bind.bind, Except.bind, Pure.pure, Except.pure]
  · intro m v hv
    cases m with
    | jobj fs =>
      cases hpr : (fs.lookup "prices").getD (.jobj []) with
      | jobj ps =>
        simp only [polyMidValue, hpr] at hv
        have hv' : (ps.lookup "mid").getD (.jnum (1/2)) = v := by simpa using hv
        refine ⟨{ source := "Polymarket",
                  title := (fs.lookup "question").getD ((fs.lookup "title").getD .jnull),
                  current_price := v,
                  link := "https://polymarket.com/event/" ++
                    pyStr ((fs.lookup "slug").getD .jnull) }, ?_, rfl⟩
        simp [polyProcessItem, pyGetDefault, hpr, Bind.bind, Except.bind,
          Pure.pure, Except.pure]
        simpa using hv'
      | jnum q => simp [polyMidValue, hpr] at hv
      | jstr s => simp [polyMidValue, hpr] at hv
      | jbool b => simp [polyMidValue, hpr] at hv
      | jnull => simp [polyMidValue, hpr] at hv
      | jarr xs => simp [polyMidValue, hpr] at hv
    | jnum q => simp [polyMidValue] at hv
    | jstr s => simp [polyMidValue] at hv
    | jbool b => simp [polyMidValue] at hv
    | jnull => simp [polyMidValue] at hv
    | jarr xs => simp [polyMidValue] at hv
  · intro d hd l hl
    cases hit : pyIter d with
    | error e =>
      have htry : fetch_polymarket_try (.response 200 (some d)) = .error e := by
        simp only [fetch_polymarket_try, hit, Bind.bind, Except.bind]
        simp
      simp only [fetch_polymarket_list, htry] at hl
      simp at hl
    | ok items =>
      have hdi : iterOf d = items := by simp [iterOf, hit]
      rw [hdi] at hd
      cases hmm : items.mapM polyProcessItem with
      | error e =>
        have htry : fetch_polymarket_try (.response 200 (some d)) = .error e := by
          simp only [fetch_polymarket_try, hit, Bind.bind, Except.bind]
          exact hmm
        simp only [fetch_polymarket_list, htry] at hl
        simp at hl
      | ok res =>
        have htry : fetch_polymarket_try (.response 200 (some d)) = .ok res := by
          simp only [fetch_polymarket_try, hit, Bind.bind, Except.bind]
          exact hmm
        simp only [fetch_polymarket_list, htry] at hl
        exact poly_mapM_prices items hd res hmm l hl
  · intro d hd l hl
    cases hit : pyIter (kalshiMarketsData d) with
    | error e =>
      have htry : fetch_kalshi_try (.response 200 (some d)) = .error e := by
        simp only [fetch_kalshi_try, hit, Bind.bind, Except.bind]
        simp
      simp only [fetch_kalshi_list, htry] at hl
      simp at hl
    | ok items =>
      have hdi : iterOf (kalshiMarketsData d) = items := by simp [iterOf, hit]
      rw [hdi] at hd
      cases hmm : items.mapM kalshiProcessItem with
      | error e =>
        have htry : fetch_kalshi_try (.response 200 (some d)) = .error e := by
          simp only [fetch_kalshi_try, hit, Bind.bind, Except.bind]
          rw [hmm]
          simp [Pure.pure, Except.pure]
        simp only [fetch_kalshi_list, htry] at hl
        simp at hl
      | ok opts =>
        have htry : fetch_kalshi_try (.response 200 (some d)) = .ok (opts.filterMap id) := by
          simp only [fetch_kalshi_try, hit, Bind.bind, Except.bind]
          rw [hmm]
          simp [Pure.pure, Except.pure]
        simp only [fetch_kalshi_list, htry] at hl
        exact kalshi_mapM_prices items hd opts hmm l hl

theorem adapter_price_normalization_amended_witness :
    (∃ l, kalshiProcessItem (.jobj [("last_price", .jnum 45)]) = .ok (some l) ∧
      l.current_price = .jnum (45 / 100)) ∧
    ∀ l ∈ fetch_kalshi_list (.response 200 (some (.jarr [.jobj [("last_price", .jnum 45)]]))),
      priceInUnitB l.current_price = true := by
  constructor
  · exact adapter_price_normalization_amended.1 [("last_price", .jnum 45)] 45 rfl
  · apply adapter_price_normalization_amended.2.2.2
    intro m hm
    simp [iterOf, pyIter, kalshiMarketsData] at hm
    subst hm
    simp [kalshiRawOK]
    norm_num

theorem kalshi_try_arr (l : List JVal) :
    fetch_kalshi_try (.response 200 (some (.jarr l))) =
      (l.mapM kalshiProcessItem).map (List.filterMap id) := by
  cases hmm : l.mapM kalshiProcessItem with
  | error e =>
    simp only [fetch_kalshi_try, kalshiMarketsData, pyIter, Bind.bind, Except.bind,
      Pure.pure, Except.pure]
    rw [hmm]
    simp [Except.map]
  | ok opts =>
    simp only [fetch_kalshi_try, kalshiMarketsData, pyIter, Bind.bind, Except.bind,
      Pure.pure, Except.pure]
    rw [hmm]
    simp [Except.map]

theorem kalshi_mapM_skip (post : List JVal) (b : JVal)
    (hb : kalshiProcessItem b = .ok none) :
    ∀ pre : List JVal,
      ((pre ++ b :: post).mapM kalshiProcessItem).map (List.filterMap id) =
      ((pre ++ post).mapM kalshiProcessItem).map (List.filterMap id) := by
  intro pre
  induction pre with
  | nil =>
    simp only [List.nil_append, List.mapM_cons, hb, Bind.bind, Except.bind]
    cases hmm : post.mapM kalshiProcessItem with
    | error e => simp [Except.map]
    | ok os => simp [Except.map, Pure.pure, Except.pure]
  | cons p ps ih =>
    simp only [List.cons_append, List.mapM_cons]
    cases hp : kalshiProcessItem p with
    | error e => simp [Bind.bind, Except.bind, Except.map]
    | ok o =>
      simp only [Bind.bind, Except.bind]
      cases hmm1 : (ps ++ b :: post).mapM kalshiProcessItem with
      | error e1 =>
        cases hmm2 : (ps ++ post).mapM kalshiProcessItem with
        | error e2 =>
          rw [hmm1, hmm2] at ih
          simp only [Except.map] at ih
          cases ih
          simp [Except.map]
        | ok os2 => rw [hmm1, hmm2] at ih; simp [Except.map] at ih
      | ok os1 =>
        cases hmm2 : (ps ++ post).mapM kalshiProcessItem with
        | error e2 => rw [hmm1, hmm2] at ih; simp [Except.map] at ih
        | ok os2 =>
          rw [hmm1, hmm2] at ih
          simp only [Except.map, Except.ok.injEq] at ih
          cases o with
          | none => simp [Except.map, Pure.pure, Except.pure, ih]
          | some l0 => simp [Except.map, Pure.pure, Except.pure, ih]

/-- C5 counterexample: the Polymarket adapter accepts neither the enveloped
payload form nor payloads with one malformed element: an enveloped array
holding a well-formed record yields `[]` (while the bare form yields one
listing), and a bare array with one malformed element yields `[]` instead of
the surviving rest — so it is false that every adapter accepts both forms and
skips malformed elements. -/
theorem adapter_payload_tolerance_counterexample :
    fetch_polymarket_list (.response 200 (some (.jobj [("data", .jarr
      [.jobj [("prices", .jobj [("mid", .jnum 1)]), ("question", .jstr "Q"),
        ("slug", .jstr "s")]])]))) = [] ∧
    (fetch_polymarket_list (.response 200 (some (.jarr
      [.jobj [("prices", .jobj [("mid", .jnum 1)]), ("question", .jstr "Q"),
        ("slug", .jstr "s")]])))).length = 1 ∧
    fetch_polymarket_list (.response 200 (some (.jarr [.jnum 1,
      .jobj [("prices", .jobj [("mid", .jnum 1)]), ("question", .jstr "Q"),
        ("slug", .jstr "s")]]))) = [] :=
  ⟨rfl, rfl, rfl⟩

/-- C5 (amended): only the Kalshi adapter is shape-tolerant: it accepts both
the bare array and the `markets`-enveloped form and skips non-dict elements;
the Polymarket adapter handles only the bare-array form, and any element that
makes its loop body raise aborts the whole fetch, which the catch-all turns
into `[]` (degrading the venue, not crashing the scan). -/
theorem adapter_payload_tolerance_amended :
    (∀ fs xs, fs.lookup "markets" = some (.jarr xs) →
      fetch_kalshi_list (.response 200 (some (.jobj fs))) =
      fetch_kalshi_list (.response 200 (some (.jarr xs)))) ∧
    (∀ pre post b, (∀ g, b ≠ .jobj g) →
      fetch_kalshi_list (.response 200 (some (.jarr (pre ++ b :: post)))) =
      fetch_kalshi_list (.response 200 (some (.jarr (pre ++ post))))) ∧
    (∀ d e, fetch_polymarket_try (.response 200 (some d)) = .error e →
      fetch_polymarket_list (.response 200 (some d)) = []) := by
  refine ⟨?_, ?_, ?_⟩
  · intro fs xs h
    simp [fetch_kalshi_list, fetch_kalshi_try, kalshiMarketsData, h]
  · intro pre post b hb
    have hskip : kalshiProcessItem b = .ok none := by
      cases b with
      | jobj g => exact absurd rfl (hb g)
      | jnum q => rfl
      | jstr s => rfl
      | jbool c => rfl
      | jnull => rfl
      | jarr xs => rfl
    have h := kalshi_mapM_skip post b hskip pre
    simp only [fetch_kalshi_list, kalshi_try_arr]
    rw [h]
  · intro d e h
    simp [fetch_polymarket_list, h]

theorem adapter_payload_tolerance_amended_witness :
    fetch_kalshi_list (.response 200 (some (.jobj [("markets", .jarr
      [.jstr "junk", .jobj [("title", .jstr "T"), ("last_price", .jnum 45),
        ("ticker", .jstr "tk")]])]))) =
    fetch_kalshi_list (.response 200 (some (.jarr
      [.jobj [("title", .jstr "T"), ("last_price", .jnum 45),
        ("ticker", .jstr "tk")]]))) := by
  have h1 := adapter_payload_tolerance_amended.1
    [("markets", .jarr [.jstr "junk", .jobj [("title", .jstr "T"),
      ("last_price", .jnum 45), ("ticker", .jstr "tk")]])]
    [.jstr "junk", .jobj [("title", .jstr "T"), ("last_price", .jnum 45),
      ("ticker", .jstr "tk")]] rfl
  have h2 := adapter_payload_tolerance_amended.2.1 []
    [.jobj [("title", .jstr "T"), ("last_price", .jnum 45), ("ticker", .jstr "tk")]]
    (.jstr "junk") (fun g h => JVal.noConfusion h)
  rw [h1]
  simpa using h2

theorem leadsWith_self_append (xs t : List Char) : leadsWith xs (xs ++ t) = true := by
  induction xs with
  | nil => rfl
  | cons c cs ih => simp [leadsWith, ih]

theorem stripAux_skip_len (pat : List Char) (xs : List Char) :
    ∀ t, stripAux pat (xs ++ t) xs.length = stripAux pat t 0 := by
  induction xs with
  | nil => intro t; rfl
  | cons c cs ih => intro t; simpa [stripAux] using ih t

theorem stripAux_not_mem (p : Char) (ps s : List Char) (h : p ∉ s) :
    stripAux (p :: ps) s 0 = s := by
  induction s with
  | nil => rfl
  | cons c rest ih =>
    have hpc : p ≠ c := fun he => h (he ▸ List.mem_cons_self c rest)
    have hrest : p ∉ rest := fun he => h (List.mem_cons_of_mem c he)
    simp [stripAux, leadsWith, hpc, ih hrest]

theorem stripAux_append_left (p : Char) (ps a t : List Char) (h : p ∉ a) :
    stripAux (p :: ps) (a ++ t) 0 = a ++ stripAux (p :: ps) t 0 := by
  induction a with
  | nil => rfl
  | cons c cs ih =>
    have hpc : p ≠ c := fun he => h (he ▸ List.mem_cons_self c cs)
    have hcs : p ∉ cs := fun he => h (List.mem_cons_of_mem c he)
    simp [stripAux, leadsWith, hpc, ih hcs]

theorem stripAux_match_head (p : Char) (ps t : List Char) :
    stripAux (p :: ps) ((p :: ps) ++ t) 0 = stripAux (p :: ps) t 0 := by
  have hl : leadsWith (p :: ps) (p :: (ps ++ t)) = true := by
    simpa using leadsWith_self_append (p :: ps) t
  rw [List.cons_append]
  simp only [stripAux, hl, if_pos, List.length_cons, Nat.add_sub_cancel]
  exact stripAux_skip_len (p :: ps) ps t

theorem stripAux_json_open (t : List Char) :
    stripAux ('`' :: '`' :: '`' :: 'j' :: 's' :: 'o' :: 'n' ::[]) ('`' :: '`' :: '`' :: 'j' :: 's' :: 'o' :: 'n' :: t) 0 =
    stripAux ('`' :: '`' :: '`' :: 'j' :: 's' :: 'o' :: 'n' ::[]) t 0 := by
  simpa using stripAux_match_head '`' ('`' :: '`' :: 'j' :: 's' :: 'o' :: 'n' ::[]) t

theorem stripAux_json_close (t : List Char) :
    stripAux ('`' :: '`' :: '`' :: 'j' :: 's' :: 'o' :: 'n' ::[]) ('`' :: '`' :: '`' :: '\n' :: t) 0 =
    '`' :: '`' :: '`' :: '\n' :: stripAux ('`' :: '`' :: '`' :: 'j' :: 's' :: 'o' :: 'n' ::[]) t 0 := by
  simp [stripAux, leadsWith]

theorem stripAux_fence3_open (t : List Char) :
    stripAux ('`' :: '`' :: '`' ::[]) ('`' :: '`' :: '`' :: t) 0 =
    stripAux ('`' :: '`' :: '`' ::[]) t 0 := by
  simpa using stripAux_match_head '`' ('`' :: '`' ::[]) t

theorem stripFences_decorated (pre bare post : List Char)
    (hpre : '`' ∉ pre) (hbare : '`' ∉ bare) (hpost : '`' ∉ post) :
    stripFences (pre ++ "```json\n".toList ++ bare ++ "\n```\n".toList ++ post) =
      pre ++ '\n' :: (bare ++ '\n' :: '\n' :: post) := by
  have e1 : ("```json\n".toList : List Char) =
      '`' :: '`' :: '`' :: 'j' :: 's' :: 'o' :: 'n' :: '\n' ::[] := rfl
  have e2 : ("\n```\n".toList : List Char) = '\n' :: '`' :: '`' :: '`' :: '\n' ::[] := rfl
  have e3 : ("```json".toList : List Char) = '`' :: '`' :: '`' :: 'j' :: 's' :: 'o' :: 'n' ::[] := rfl
  have e4 : ("```".toList : List Char) = '`' :: '`' :: '`' ::[] := rfl
  have hnb : ('`' : Char) ∉ '\n' :: bare := by simp [hbare]
  have hnp : ('`' : Char) ∉ '\n' :: post := by simp [hpost]
  have hn1 : ('`' : Char) ∉ ['\n'] := by simp
  have hs1 : stripPat "```json".toList
      (pre ++ "```json\n".toList ++ bare ++ "\n```\n".toList ++ post) =
      pre ++ '\n' :: (bare ++ '\n' :: '`' :: '`' :: '`' :: '\n' ::post) := by
    rw [stripPat, e1, e2, e3]
    simp only [List.append_assoc, List.cons_append, List.nil_append]
    rw [stripAux_append_left _ _ _ _ hpre, stripAux_json_open]
    rw [show ('\n' :: (bare ++ '\n' :: '`' :: '`' :: '`' :: '\n' ::post) : List Char) =
      ('\n' ::bare) ++ ('\n' :: '`' :: '`' :: '`' :: '\n' ::post) from rfl]
    rw [stripAux_append_left _ _ _ _ hnb]
    rw [show ('\n' :: '`' :: '`' :: '`' :: '\n' ::post : List Char) =
      ['\n'] ++ ('`' :: '`' :: '`' :: '\n' ::post) from rfl]
    rw [stripAux_append_left _ _ _ _ hn1, stripAux_json_close,
      stripAux_not_mem _ _ _ hpost]
  rw [stripFences, hs1, stripPat, e4]
  rw [show (pre ++ '\n' :: (bare ++ '\n' :: '`' :: '`' :: '`' :: '\n' ::post) : List Char) =
    (pre ++ ('\n' ::bare) ++ ['\n']) ++ ('`' :: '`' :: '`' ::('\n' ::post)) from by simp]
  have hpp : ('`' : Char) ∉ pre ++ ('\n' ::bare) ++ ['\n'] := by
    simp [hpre, hbare]
  rw [stripAux_append_left _ _ _ _ hpp, stripAux_fence3_open,
    stripAux_not_mem _ _ _ hnp]
  simp

theorem stripFences_clean (s : List Char) (h : '`' ∉ s) : stripFences s = s := by
  rw [stripFences, stripPat, stripPat,
    show ("```json".toList : List Char) = '`' :: '`' :: '`' :: 'j' :: 's' :: 'o' :: 'n' ::[] from rfl,
    show ("```".toList : List Char) = '`' :: '`' :: '`' ::[] from rfl,
    stripAux_not_mem _ _ _ h, stripAux_not_mem _ _ _ h]

theorem extractSpan_surround (a mid b : List Char)
    (ha : ∀ c ∈ a, c ≠ '[' ∧ c ≠ ']')
    (hb : ∀ c ∈ b, c ≠ '[' ∧ c ≠ ']') :
    extractSpan (a ++ ('[' :: mid ++ [']']) ++ b) = '[' :: mid ++ [']'] := by
  have ht : (a ++ ('[' :: mid ++ [']']) ++ b).dropWhile (fun c => c ≠ '[') =
      ('[' :: mid ++ [']']) ++ b := by
    rw [List.append_assoc, List.dropWhile_append_of_pos (by
      intro c hc
      simpa using (ha c hc).1)]
    simp [List.dropWhile_cons]
  have hu : ((('[' :: mid ++ [']']) ++ b).reverse.dropWhile (fun c => c ≠ ']')).reverse =
      '[' :: mid ++ [']'] := by
    rw [List.reverse_append, List.dropWhile_append_of_pos (by
      intro c hc
      simpa using (hb c (List.mem_reverse.mp hc)).2)]
    rw [show (('[' : Char) :: mid ++ [']']).reverse = ']' :: ('[' :: mid).reverse from by
      simp]
    simp [List.dropWhile_cons]
  rw [extractSpan]
  simp only [ht, hu]
  simp

/-- C9: for an oracle response consisting of one well-formed top-level array
decorated with code fences and/or leading and trailing prose (bracket- and
backtick-free), the extraction step (strip fence markers, then take the
greedy span from the first opening to the last closing square bracket)
recovers exactly the bare array text, so parsing after extraction gives the
same structure as parsing the bare array alone for every parser; on already
clean input, extraction is the identity. -/
theorem extraction_recovers_bare_array (pre post mid : List Char)
    (hpre : ∀ c ∈ pre, c ≠ '[' ∧ c ≠ ']' ∧ c ≠ '`')
    (hpost : ∀ c ∈ post, c ≠ '[' ∧ c ≠ ']' ∧ c ≠ '`')
    (hmid : '`' ∉ mid) :
    extractSpan (stripFences (pre ++ "```json\n".toList ++ ('[' :: mid ++ [']']) ++
      "\n```\n".toList ++ post)) = '[' :: mid ++ [']'] ∧
    extractSpan (stripFences (pre ++ ('[' :: mid ++ [']']) ++ post)) =
      '[' :: mid ++ [']'] ∧
    extractSpan (stripFences ('[' :: mid ++ [']'])) = '[' :: mid ++ [']'] ∧
    ∀ parse : List Char → Option JVal,
      parse (extractSpan (stripFences (pre ++ "```json\n".toList ++
        ('[' :: mid ++ [']']) ++ "\n```\n".toList ++ post))) =
      parse ('[' :: mid ++ [']']) := by
  have hpre' : ('`' : Char) ∉ pre := fun hc => ((hpre _ hc).2.2) rfl
  have hpost' : ('`' : Char) ∉ post := fun hc => ((hpost _ hc).2.2) rfl
  have hbare : ('`' : Char) ∉ '[' :: mid ++ [']'] := by
    simp [hmid]
  have h1 : extractSpan (stripFences (pre ++ "```json\n".toList ++
      ('[' :: mid ++ [']']) ++ "\n```\n".toList ++ post)) = '[' :: mid ++ [']'] := by
    rw [stripFences_decorated pre ('[' :: mid ++ [']']) post hpre' hbare hpost']
    rw [show (pre ++ '\n' :: (('[' :: mid ++ [']']) ++ '\n' :: '\n' ::post) : List Char) =
      (pre ++ ['\n']) ++ ('[' :: mid ++ [']']) ++ ('\n' :: '\n' ::post) from by simp]
    exact extractSpan_surround _ _ _
      (by
        intro c hc
        rcases List.mem_append.mp hc with hc | hc
        · exact ⟨(hpre c hc).1, (hpre c hc).2.1⟩
        · simp only [List.mem_singleton] at hc
          subst hc
          exact ⟨by decide, by decide⟩)
      (by
        intro c hc
        simp only [List.mem_cons] at hc
        rcases hc with hc | hc | hc
        · subst hc; exact ⟨by decide, by decide⟩
        · subst hc; exact ⟨by decide, by decide⟩
        · exact ⟨(hpost c hc).1, (hpost c hc).2.1⟩)
  refine ⟨h1, ?_, ?_, fun parse => by rw [h1]⟩
  · rw [stripFences_clean _ (by simp [hpre', hmid, hpost'])]
    exact extractSpan_surround _ _ _
      (fun c hc => ⟨(hpre c hc).1, (hpre c hc).2.1⟩)
      (fun c hc => ⟨(hpost c hc).1, (hpost c hc).2.1⟩)
  · rw [stripFences_clean _ hbare]
    have h := extractSpan_surround [] mid [] (by simp) (by simp)
    simpa using h

theorem extraction_recovers_bare_array_witness :
    extractSpan (stripFences ("Here you go:\n".toList ++ "```json\n".toList ++
      ('[' :: "0.55, 0.9".toList ++ [']']) ++ "\n```\n".toList ++ "Enjoy!".toList)) =
    '[' :: "0.55, 0.9".toList ++ [']'] :=
  (extraction_recovers_bare_array "Here you go:\n".toList "Enjoy!".toList
    "0.55, 0.9".toList (by decide) (by decide) (by decide)).1
